import Mathlib

/-!
Verification of `src/cs231n/classifiers/neural_net.py`: a two-layer
fully connected neural network (affine → ReLU → affine → softmax) with
L2 regularization.

The numeric code is embedded over exact real arithmetic: a batch of N
samples with D features is a `Matrix (Fin N) (Fin D) ℝ`, the parameter
dictionary `{W1, b1, W2, b2}` is a structure with one field per key, and
each line of `two_layer_net` becomes a named definition mirroring the
corresponding numpy expression.  Numpy fancy indexing with possibly
out-of-range integer labels is modelled separately by `npIndex`
(negative indices wrap, as in numpy), and the allocation / in-place
mutation behaviour of the routine is modelled by an explicit
state-passing allocator (`two_layer_net_alloc`).
-/

namespace NeuralNet

open Matrix (transpose)

open scoped Matrix

/-- The parameter dictionary built by `init_two_layer_model` and consumed by
`two_layer_net`: keys `W1 : (D,H)`, `b1 : (H,)`, `W2 : (H,C)`, `b2 : (C,)`. -/
structure Model (D H C : ℕ) where
  W1 : Matrix (Fin D) (Fin H) ℝ
  b1 : Fin H → ℝ
  W2 : Matrix (Fin H) (Fin C) ℝ
  b2 : Fin C → ℝ

/-- The gradient dictionary returned by `two_layer_net` in training mode:
same keys and shapes as `Model`. -/
structure Grads (D H C : ℕ) where
  W1 : Matrix (Fin D) (Fin H) ℝ
  b1 : Fin H → ℝ
  W2 : Matrix (Fin H) (Fin C) ℝ
  b2 : Fin C → ℝ

/-- `init_two_layer_model(input_size, hidden_size, output_size)` (lines 25-30).
The ambient random source `np.random.randn` is modelled as explicit
caller-supplied draw tables `randn1`, `randn2`:
`model['W1'] = 0.00001 * np.random.randn(D, H)`, `model['b1'] = np.zeros(H)`,
`model['W2'] = 0.00001 * np.random.randn(H, C)`, `model['b2'] = np.zeros(C)`. -/
noncomputable def init_two_layer_model (D H C : ℕ)
    (randn1 : Fin D → Fin H → ℝ) (randn2 : Fin H → Fin C → ℝ) : Model D H C where
  W1 := Matrix.of fun d j => 0.00001 * randn1 d j
  b1 := fun _ => 0
  W2 := Matrix.of fun j c => 0.00001 * randn2 j c
  b2 := fun _ => 0

variable {N D H C : ℕ}

/-- Line 80: `hidden_layer_scores = np.maximum(0, np.dot(X, W1) + b1)`. -/
noncomputable def hidden_layer_scores (X : Matrix (Fin N) (Fin D) ℝ)
    (m : Model D H C) : Matrix (Fin N) (Fin H) ℝ :=
  Matrix.of fun i j => max 0 ((∑ k, X i k * m.W1 k j) + m.b1 j)

/-- Line 83: `scores = np.dot(hidden_layer_scores, W2) + b2`. -/
noncomputable def scores (X : Matrix (Fin N) (Fin D) ℝ)
    (m : Model D H C) : Matrix (Fin N) (Fin C) ℝ :=
  Matrix.of fun i c => (∑ j, hidden_layer_scores X m i j * m.W2 j c) + m.b2 c

/-- Lines 93-94: `class_probs = np.exp(scores) / np.sum(np.exp(scores), axis=1,
keepdims=True)` (no row-max subtraction — the naive softmax). -/
noncomputable def class_probs (X : Matrix (Fin N) (Fin D) ℝ)
    (m : Model D H C) : Matrix (Fin N) (Fin C) ℝ :=
  Matrix.of fun i c => Real.exp (scores X m i c) / ∑ k, Real.exp (scores X m i k)

/-- Line 98: `correct_probs = -np.log(class_probs[range(num_train), y])`
(for in-range labels `y : Fin N → Fin C`). -/
noncomputable def correct_probs (X : Matrix (Fin N) (Fin D) ℝ)
    (m : Model D H C) (y : Fin N → Fin C) : Fin N → ℝ :=
  fun i => -Real.log (class_probs X m i (y i))

/-- Lines 100-102: `loss = np.sum(correct_probs) / num_train`, then
`loss += 0.5 * reg * np.sum(W1 * W1)`, then `loss += 0.5 * reg * np.sum(W2 * W2)`. -/
noncomputable def loss (X : Matrix (Fin N) (Fin D) ℝ)
    (m : Model D H C) (y : Fin N → Fin C) (reg : ℝ) : ℝ :=
  (∑ i, correct_probs X m y i) / (N : ℝ)
    + 0.5 * reg * (∑ d, ∑ j, m.W1 d j * m.W1 d j)
    + 0.5 * reg * (∑ j, ∑ c, m.W2 j c * m.W2 j c)

/-- Lines 108-110: `dscores = class_probs; dscores[range(num_train), y] -= 1;
dscores /= num_train`. -/
noncomputable def dscores (X : Matrix (Fin N) (Fin D) ℝ)
    (m : Model D H C) (y : Fin N → Fin C) : Matrix (Fin N) (Fin C) ℝ :=
  Matrix.of fun i c => (class_probs X m i c - if c = y i then 1 else 0) / (N : ℝ)

/-- Lines 113 and 127: `dW2 = np.dot(hidden_layer_scores.T, dscores)`, later
`dW2 += reg * W2`. -/
noncomputable def dW2 (X : Matrix (Fin N) (Fin D) ℝ)
    (m : Model D H C) (y : Fin N → Fin C) (reg : ℝ) : Matrix (Fin H) (Fin C) ℝ :=
  Matrix.of fun j c => (∑ i, hidden_layer_scores X m i j * dscores X m y i c) + reg * m.W2 j c

/-- Line 114: `db2 = np.sum(dscores, axis=0)`. -/
noncomputable def db2 (X : Matrix (Fin N) (Fin D) ℝ)
    (m : Model D H C) (y : Fin N → Fin C) : Fin C → ℝ :=
  fun c => ∑ i, dscores X m y i c

/-- Lines 117 and 120: `dHidden = np.dot(dscores, W2.T)`, then
`dHidden[hidden_layer_scores <= 0] = 0`. -/
noncomputable def dHidden (X : Matrix (Fin N) (Fin D) ℝ)
    (m : Model D H C) (y : Fin N → Fin C) : Matrix (Fin N) (Fin H) ℝ :=
  Matrix.of fun i j =>
    if hidden_layer_scores X m i j ≤ 0 then 0 else ∑ c, dscores X m y i c * m.W2 j c

/-- Lines 123 and 128: `dW1 = np.dot(X.T, dHidden)`, later `dW1 += reg * W1`. -/
noncomputable def dW1 (X : Matrix (Fin N) (Fin D) ℝ)
    (m : Model D H C) (y : Fin N → Fin C) (reg : ℝ) : Matrix (Fin D) (Fin H) ℝ :=
  Matrix.of fun d j => (∑ i, X i d * dHidden X m y i j) + reg * m.W1 d j

/-- Line 124: `db1 = np.sum(dHidden, axis=0)`. -/
noncomputable def db1 (X : Matrix (Fin N) (Fin D) ℝ)
    (m : Model D H C) (y : Fin N → Fin C) : Fin H → ℝ :=
  fun j => ∑ i, dHidden X m y i j

/-- Lines 130-133: the gradient dictionary
`grads = {W1: dW1, b1: db1, W2: dW2, b2: db2}`. -/
noncomputable def grads (X : Matrix (Fin N) (Fin D) ℝ)
    (m : Model D H C) (y : Fin N → Fin C) (reg : ℝ) : Grads D H C where
  W1 := dW1 X m y reg
  b1 := db1 X m y
  W2 := dW2 X m y reg
  b2 := db2 X m y

/-- `two_layer_net(X, model, y, reg)` (lines 32-135) for labels already known
to be in range: with `y = None` (inference mode) returns the scores only
(line 87); with labels (training mode) returns `(loss, grads)` (line 135). -/
noncomputable def two_layer_net (X : Matrix (Fin N) (Fin D) ℝ)
    (m : Model D H C) (y : Option (Fin N → Fin C)) (reg : ℝ) :
    Matrix (Fin N) (Fin C) ℝ ⊕ ℝ × Grads D H C :=
  match y with
  | none => Sum.inl (scores X m)
  | some yy => Sum.inr (loss X m yy reg, grads X m yy reg)

/-- Numpy integer fancy indexing into an axis of length `n`: an index `i` with
`0 ≤ i < n` selects position `i`; a negative index with `-n ≤ i < 0` wraps and
selects position `n + i`; anything else raises `IndexError` (here: `none`). -/
def npIndex (n : ℕ) (i : ℤ) : Option (Fin n) :=
  if h : 0 ≤ i ∧ i < (n : ℤ) then some ⟨i.toNat, by omega⟩
  else if h2 : -(n : ℤ) ≤ i ∧ i < 0 then some ⟨(i + (n : ℤ)).toNat, by omega⟩
  else none

/-- Resolution of the raw integer label vector `y` against `C` columns, as
`class_probs[range(num_train), y]` (line 98) does: every label must resolve
through `npIndex`, otherwise the call raises `IndexError` (here: `none`). -/
def resolveLabels (n c : ℕ) (y : Fin n → ℤ) : Option (Fin n → Fin c) :=
  if h : ∀ i, (npIndex c (y i)).isSome then some (fun i => (npIndex c (y i)).get (h i))
  else none

/-- `two_layer_net` in training mode on a raw integer label vector: the labels
are resolved by numpy fancy indexing (lines 98 and 109 index identically), and
the loss and gradients are computed at the resolved labels; an unresolvable
label is the `IndexError` outcome `none`. -/
noncomputable def two_layer_net_raw (X : Matrix (Fin N) (Fin D) ℝ)
    (m : Model D H C) (y : Fin N → ℤ) (reg : ℝ) : Option (ℝ × Grads D H C) :=
  (resolveLabels N C y).map fun yy => (loss X m yy reg, grads X m yy reg)

/-!
Allocation model for the frame conditions of `two_layer_net`.

Array values are identified by numeric object ids.  Every numpy call and
binary operator in the routine (`np.dot`, `np.maximum`, `np.exp`, `np.sum`,
`np.log`, `+`, `/`, `*`, unary `-`, fancy-index read) allocates a fresh
result array; the augmented assignments `-=` on a fancy-indexed slice
(line 109), `/=` (line 110), masked assignment (line 120) and `+=`
(lines 127-128) mutate their left-hand array in place; the plain assignment
`dscores = class_probs` (line 108) aliases without allocating.  In-place
mutation of an array object is the only way the routine could alter a
caller-visible array, so an id absent from the `mutated` log names an array
whose contents are unchanged.
-/

/-- Allocator state: the next fresh object id, and the log of ids of arrays
that have been mutated in place so far. -/
structure AllocState where
  next : ℕ
  mutated : List ℕ

/-- Allocate a fresh array object and return its id. -/
def npAlloc (s : AllocState) : ℕ × AllocState :=
  (s.next, ⟨s.next + 1, s.mutated⟩)

/-- Record an in-place mutation of the array object with id `a`. -/
def npMutate (a : ℕ) (s : AllocState) : AllocState :=
  ⟨s.next, a :: s.mutated⟩

/-- The allocation/mutation trace of `two_layer_net(X, model, y, reg)`
(lines 72-135), one allocator step per numpy array operation in source order.
`training` is whether `y` was passed; inputs are the ids of the caller's
arrays `X, W1, b1, W2, b2`.  Returns the ids of the returned arrays (the
scores in inference mode; `dW1, db1, dW2, db2` in training mode — the loss is
a python scalar, not an array) and the final allocator state. -/
def two_layer_net_alloc (training : Bool) (xid wid1 bid1 wid2 bid2 : ℕ)
    (s0 : AllocState) : List ℕ × AllocState :=
  let a1 := npAlloc s0                 -- line 80: np.dot(X, W1)
  let a2 := npAlloc a1.2               -- line 80: ... + b1
  let a3 := npAlloc a2.2               -- line 80: np.maximum(0, ...) → hidden_layer_scores
  let a4 := npAlloc a3.2               -- line 83: np.dot(hidden_layer_scores, W2)
  let a5 := npAlloc a4.2               -- line 83: ... + b2 → scores
  if training = false then ([a5.1], a5.2)   -- line 87: return scores
  else
    let a6 := npAlloc a5.2             -- line 93: np.exp(scores) → cross_entropy_loss
    let a7 := npAlloc a6.2             -- line 94: np.sum(..., axis=1, keepdims=True)
    let a8 := npAlloc a7.2             -- line 94: division → class_probs
    let a9 := npAlloc a8.2             -- line 98: fancy-index read class_probs[range, y]
    let a10 := npAlloc a9.2            -- line 98: np.log
    let a11 := npAlloc a10.2           -- line 98: negation → correct_probs
    let dscoresId := a8.1              -- line 108: dscores = class_probs (alias, no allocation)
    let s12 := npMutate dscoresId a11.2   -- line 109: dscores[range, y] -= 1 (in place)
    let s13 := npMutate dscoresId s12     -- line 110: dscores /= num_train (in place)
    let a14 := npAlloc s13             -- line 113: dW2 = np.dot(hidden_layer_scores.T, dscores)
    let a15 := npAlloc a14.2           -- line 114: db2 = np.sum(dscores, axis=0)
    let a16 := npAlloc a15.2           -- line 117: dHidden = np.dot(dscores, W2.T)
    let s17 := npMutate a16.1 a16.2    -- line 120: dHidden[hidden_layer_scores <= 0] = 0 (in place)
    let a18 := npAlloc s17             -- line 123: dW1 = np.dot(X.T, dHidden)
    let a19 := npAlloc a18.2           -- line 124: db1 = np.sum(dHidden, axis=0)
    let a20 := npAlloc a19.2           -- line 127: temporary reg * W2
    let s21 := npMutate a14.1 a20.2    -- line 127: dW2 += ... (in place)
    let a22 := npAlloc s21             -- line 128: temporary reg * W1
    let s23 := npMutate a18.1 a22.2    -- line 128: dW1 += ... (in place)
    ([a18.1, a19.1, a14.1, a15.1], s23)   -- lines 130-135: grads {W1, b1, W2, b2}

/-! Concrete instances used by witnesses and counterexamples. -/

/-- A 1×1 all-zero input batch. -/
noncomputable def X0 : Matrix (Fin 1) (Fin 1) ℝ := 0

/-- An all-zero model with D = H = C = 1. -/
noncomputable def m0 : Model 1 1 1 := ⟨0, 0, 0, 0⟩

/-- A model with D = H = C = 1 whose single W1 entry is 1, all else zero. -/
noncomputable def m1 : Model 1 1 1 := ⟨Matrix.of fun _ _ => 1, 0, 0, 0⟩

/-- An all-zero model with D = H = 1 and C = 2 classes. -/
noncomputable def m02 : Model 1 1 2 := ⟨0, 0, 0, 0⟩

/-- The in-range label vector [0] for one sample. -/
def y0 : Fin 1 → Fin 1 := fun _ => 0

/-- The raw integer label vector [-1] for one sample. -/
def yNeg : Fin 1 → ℤ := fun _ => -1

/-! Helper lemmas about the softmax probabilities. -/

lemma exp_scores_sum_pos (X : Matrix (Fin N) (Fin D) ℝ) (m : Model D H C)
    (i : Fin N) (c0 : Fin C) : 0 < ∑ k, Real.exp (scores X m i k) :=
  Finset.sum_pos (fun k _ => Real.exp_pos _) ⟨c0, Finset.mem_univ c0⟩

lemma class_probs_pos (X : Matrix (Fin N) (Fin D) ℝ) (m : Model D H C)
    (i : Fin N) (c : Fin C) : 0 < class_probs X m i c :=
  div_pos (Real.exp_pos _) (exp_scores_sum_pos X m i c)

lemma class_probs_le_one (X : Matrix (Fin N) (Fin D) ℝ) (m : Model D H C)
    (i : Fin N) (c : Fin C) : class_probs X m i c ≤ 1 := by
  rw [class_probs, Matrix.of_apply, div_le_one (exp_scores_sum_pos X m i c)]
  exact Finset.single_le_sum (fun k _ => (Real.exp_pos (scores X m i k)).le)
    (Finset.mem_univ c)

lemma class_probs_row_sum (X : Matrix (Fin N) (Fin D) ℝ) (m : Model D H C)
    (i : Fin N) (c0 : Fin C) : ∑ c, class_probs X m i c = 1 := by
  simp only [class_probs, Matrix.of_apply]
  rw [← Finset.sum_div, div_self (exp_scores_sum_pos X m i c0).ne']

/-- Claim C3: the forward pass computes `scores = max(0, X·W1 + b1)·W2 + b2`,
with each bias broadcast over the N rows, yielding a matrix of shape (N, C). -/
theorem scores_forward_spec (X : Matrix (Fin N) (Fin D) ℝ) (m : Model D H C) :
    scores X m
      = (Matrix.of fun i j => max 0 ((X * m.W1) i j + m.b1 j)) * m.W2
        + Matrix.of fun _ c => m.b2 c := by
  funext i c
  simp [scores, hidden_layer_scores, Matrix.mul_apply, Matrix.add_apply, Matrix.of_apply]

/-- Claim C1: in training mode the total loss returned by `two_layer_net` is
the mean over the N samples of `-log(P[i, y i])`, where `P` is the naive
row-normalized exponential of the scores (no row-max subtraction), plus
`0.5·reg·‖W1‖² + 0.5·reg·‖W2‖²`; the biases do not enter the
regularization term. -/
theorem two_layer_net_training_loss (X : Matrix (Fin N) (Fin D) ℝ)
    (m : Model D H C) (y : Fin N → Fin C) (reg : ℝ) :
    two_layer_net X m (some y) reg
      = Sum.inr
          ((∑ i, -Real.log
              (Real.exp (scores X m i (y i)) / ∑ c, Real.exp (scores X m i c))) / (N : ℝ)
            + 0.5 * reg * (∑ d, ∑ j, m.W1 d j ^ 2)
            + 0.5 * reg * (∑ j, ∑ c, m.W2 j c ^ 2),
           grads X m y reg) := by
  simp only [two_layer_net, loss, correct_probs, class_probs, Matrix.of_apply, pow_two]

/-- Claim C4: with `y` absent, `two_layer_net` returns only the scores matrix;
no loss or gradients, no regularization, and the result is the same for every
value of `reg`. -/
theorem two_layer_net_inference (X : Matrix (Fin N) (Fin D) ℝ)
    (m : Model D H C) (reg reg' : ℝ) :
    two_layer_net X m none reg = Sum.inl (scores X m)
    ∧ two_layer_net X m none reg = two_layer_net X m none reg' :=
  ⟨rfl, rfl⟩

/-- Claim C5: for positive sizes D, H, C, the initializer returns exactly the
keys W1 (D,H), b1 (H), W2 (H,C), b2 (C) — the shapes are carried by the types
of the `Model D H C` fields — with b1 and b2 all zero and each W1/W2 entry a
draw from the random source scaled by 1e-5. -/
theorem init_two_layer_model_spec (D H C : ℕ) (hD : 0 < D) (hH : 0 < H) (hC : 0 < C)
    (randn1 : Fin D → Fin H → ℝ) (randn2 : Fin H → Fin C → ℝ) :
    (init_two_layer_model D H C randn1 randn2).W1
        = Matrix.of (fun d j => 0.00001 * randn1 d j)
    ∧ (init_two_layer_model D H C randn1 randn2).b1 = (fun _ => 0)
    ∧ (init_two_layer_model D H C randn1 randn2).W2
        = Matrix.of (fun j c => 0.00001 * randn2 j c)
    ∧ (init_two_layer_model D H C randn1 randn2).b2 = (fun _ => 0) :=
  ⟨rfl, rfl, rfl, rfl⟩

/-- Witness for C5 at D = H = C = 1 with concrete draw tables. -/
theorem init_two_layer_model_spec_witness :
    (init_two_layer_model 1 1 1 (fun _ _ => 2) (fun _ _ => 3)).W1
        = Matrix.of (fun _ _ => 0.00001 * 2)
    ∧ (init_two_layer_model 1 1 1 (fun _ _ => 2) (fun _ _ => 3)).b1 = (fun _ => 0)
    ∧ (init_two_layer_model 1 1 1 (fun _ _ => 2) (fun _ _ => 3)).W2
        = Matrix.of (fun _ _ => 0.00001 * 3)
    ∧ (init_two_layer_model 1 1 1 (fun _ _ => 2) (fun _ _ => 3)).b2 = (fun _ => 0) :=
  init_two_layer_model_spec 1 1 1 (by norm_num) (by norm_num) (by norm_num) _ _

/-- Claim C2: the training-mode gradients equal the analytic formulas:
`dScores = (P - onehot(y)) / N`; `grads.W2 = hiddenᵀ·dScores + reg·W2`;
`grads.b2` = column sums of `dScores`; `dHidden = dScores·W2ᵀ` gated to zero
where the hidden pre-activation (equivalently the activation) is ≤ 0;
`grads.W1 = Xᵀ·dHidden + reg·W1`; `grads.b1` = column sums of `dHidden`. -/
theorem two_layer_net_training_grads (X : Matrix (Fin N) (Fin D) ℝ)
    (m : Model D H C) (y : Fin N → Fin C) (reg : ℝ) :
    dscores X m y
        = Matrix.of (fun i c => (class_probs X m i c - if c = y i then 1 else 0) / (N : ℝ))
    ∧ dHidden X m y
        = Matrix.of (fun i j =>
            if (X * m.W1) i j + m.b1 j ≤ 0 then 0 else (dscores X m y * m.W2ᵀ) i j)
    ∧ grads X m y reg
        = { W1 := Xᵀ * dHidden X m y + reg • m.W1
            b1 := fun j => ∑ i, dHidden X m y i j
            W2 := (hidden_layer_scores X m)ᵀ * dscores X m y + reg • m.W2
            b2 := fun c => ∑ i, dscores X m y i c } := by
  refine ⟨rfl, ?_, ?_⟩
  · funext i j
    have hcond : hidden_layer_scores X m i j ≤ 0 ↔ (X * m.W1) i j + m.b1 j ≤ 0 := by
      rw [hidden_layer_scores, Matrix.of_apply, Matrix.mul_apply, max_le_iff,
        and_iff_right le_rfl]
    rw [dHidden, Matrix.of_apply, Matrix.of_apply]
    by_cases hc : (X * m.W1) i j + m.b1 j ≤ 0
    · rw [if_pos (hcond.mpr hc), if_pos hc]
    · rw [if_neg (fun hh => hc (hcond.mp hh)), if_neg hc, Matrix.mul_apply]
      exact Finset.sum_congr rfl fun c _ => by rw [Matrix.transpose_apply]
  · simp only [grads, Grads.mk.injEq]
    refine ⟨?_, rfl, ?_, rfl⟩
    · funext d j
      simp [dW1, Matrix.mul_apply, Matrix.transpose_apply, Matrix.add_apply,
        Matrix.smul_apply, smul_eq_mul]
    · funext j c
      simp [dW2, Matrix.mul_apply, Matrix.transpose_apply, Matrix.add_apply,
        Matrix.smul_apply, smul_eq_mul]

/-- Claim C7: for valid training input (in-range labels, `reg ≥ 0`), the total
loss is non-negative under exact real arithmetic: each per-sample term
`-log(P[i, y i])` is ≥ 0 because each probability is ≤ 1, and the
regularization term is ≥ 0. -/
theorem loss_nonneg (X : Matrix (Fin N) (Fin D) ℝ) (m : Model D H C)
    (y : Fin N → Fin C) (reg : ℝ) (hreg : 0 ≤ reg) : 0 ≤ loss X m y reg := by
  have hdata : 0 ≤ (∑ i, correct_probs X m y i) / (N : ℝ) := by
    refine div_nonneg (Finset.sum_nonneg fun i _ => ?_) (Nat.cast_nonneg N)
    rw [correct_probs, neg_nonneg]
    exact Real.log_nonpos (class_probs_pos X m i (y i)).le (class_probs_le_one X m i (y i))
  have hw1 : 0 ≤ 0.5 * reg * (∑ d, ∑ j, m.W1 d j * m.W1 d j) :=
    mul_nonneg (mul_nonneg (by norm_num) hreg)
      (Finset.sum_nonneg fun d _ => Finset.sum_nonneg fun j _ => mul_self_nonneg _)
  have hw2 : 0 ≤ 0.5 * reg * (∑ j, ∑ c, m.W2 j c * m.W2 j c) :=
    mul_nonneg (mul_nonneg (by norm_num) hreg)
      (Finset.sum_nonneg fun j _ => Finset.sum_nonneg fun c _ => mul_self_nonneg _)
  rw [loss]
  exact add_nonneg (add_nonneg hdata hw1) hw2

/-- Witness for C7: at the all-zero 1×1×1 instance with `reg = 0` the loss is
non-negative. -/
theorem loss_nonneg_witness : 0 ≤ loss X0 m0 y0 0 :=
  loss_nonneg X0 m0 y0 0 le_rfl

/-- Claim C10: the entries of the returned bias gradient `grads['b2']` sum to
zero: each row of `dscores` sums to zero because each softmax row sums to 1
and exactly one entry per row has 1 subtracted. -/
theorem grads_b2_sum_zero (X : Matrix (Fin N) (Fin D) ℝ) (m : Model D H C)
    (y : Fin N → Fin C) (reg : ℝ) : ∑ c, (grads X m y reg).b2 c = 0 := by
  show ∑ c, db2 X m y c = 0
  simp only [db2, dscores, Matrix.of_apply]
  rw [Finset.sum_comm]
  refine Finset.sum_eq_zero fun i _ => ?_
  rw [← Finset.sum_div]
  have hrow : ∑ c, (class_probs X m i c - if c = y i then (1 : ℝ) else 0) = 0 := by
    rw [Finset.sum_sub_distrib, class_probs_row_sum X m i (y i)]
    simp
  rw [hrow, zero_div]

/-- Claim C6 (amended): with X, parameters, y fixed, the total loss at `reg`
exceeds the total loss at `reg = 0` by exactly `0.5·reg·(‖W1‖² + ‖W2‖²)`;
increasing `reg` strictly increases the total loss provided some weight entry
is nonzero (with all-zero weights the loss is constant in `reg`); and the
dScores-derived quantities — `grads.b2`, `grads.b1`, and the dScores-derived
parts of `grads.W2` and `grads.W1` — are unaffected by `reg`. -/
theorem loss_reg_effect (X : Matrix (Fin N) (Fin D) ℝ) (m : Model D H C)
    (y : Fin N → Fin C) (reg reg' : ℝ) (h : reg < reg') :
    loss X m y reg
        = loss X m y 0
          + 0.5 * reg * ((∑ d, ∑ j, m.W1 d j ^ 2) + (∑ j, ∑ c, m.W2 j c ^ 2))
    ∧ (0 < (∑ d, ∑ j, m.W1 d j ^ 2) + (∑ j, ∑ c, m.W2 j c ^ 2)
        → loss X m y reg < loss X m y reg')
    ∧ (grads X m y reg).b2 = (grads X m y reg').b2
    ∧ (grads X m y reg).b1 = (grads X m y reg').b1
    ∧ (grads X m y reg).W2 - reg • m.W2 = (grads X m y reg').W2 - reg' • m.W2
    ∧ (grads X m y reg).W1 - reg • m.W1 = (grads X m y reg').W1 - reg' • m.W1 := by
  have hk : ∀ r : ℝ, loss X m y r
      = loss X m y 0
        + 0.5 * r * ((∑ d, ∑ j, m.W1 d j ^ 2) + (∑ j, ∑ c, m.W2 j c ^ 2)) := by
    intro r
    simp only [loss, pow_two]
    ring
  refine ⟨hk reg, fun hS => ?_, rfl, rfl, ?_, ?_⟩
  · rw [hk reg, hk reg']
    have := mul_lt_mul_of_pos_right (by linarith : 0.5 * reg < 0.5 * reg') hS
    linarith
  · funext j c
    simp only [grads, dW2, Matrix.sub_apply, Matrix.smul_apply, Matrix.of_apply,
      smul_eq_mul]
    ring
  · funext d j
    simp only [grads, dW1, Matrix.sub_apply, Matrix.smul_apply, Matrix.of_apply,
      smul_eq_mul]
    ring

/-- Counterexample to C6 as stated: with the all-zero model, increasing `reg`
from 0 to 1 does not strictly increase the total loss (both losses are 0). -/
theorem loss_reg_strict_cex : ¬ (loss X0 m0 y0 0 < loss X0 m0 y0 1) := by
  have h0 : ∀ r : ℝ, loss X0 m0 y0 r = 0 := by
    intro r
    simp [loss, correct_probs, class_probs, scores, hidden_layer_scores, m0, X0, y0]
  rw [h0 0, h0 1]
  exact lt_irrefl 0

/-- Witness for C6: with a nonzero W1 entry, raising `reg` from 0 to 1
strictly increases the loss. -/
theorem loss_reg_effect_witness : loss X0 m1 y0 0 < loss X0 m1 y0 1 :=
  (loss_reg_effect X0 m1 y0 0 1 (by norm_num)).2.1
    (by simp [m1, Fin.sum_univ_one])

/-- How `npIndex` can succeed: exactly at indices in `[-n, n)`. -/
lemma npIndex_isSome (n : ℕ) (i : ℤ) :
    (npIndex n i).isSome = true ↔ (-(n : ℤ) ≤ i ∧ i < (n : ℤ)) := by
  rw [npIndex]
  split_ifs with h1 h2
  · simp only [Option.isSome_some, true_iff]
    omega
  · simp only [Option.isSome_some, true_iff]
    omega
  · simp only [Option.isSome_none, Bool.false_eq_true, false_iff]
    omega

/-- Label resolution fails exactly when some label is outside `[-C, C)`. -/
lemma resolveLabels_eq_none (n c : ℕ) (y : Fin n → ℤ) :
    resolveLabels n c y = none ↔ ∃ i, y i < -(c : ℤ) ∨ (c : ℤ) ≤ y i := by
  rw [resolveLabels]
  by_cases h : ∀ i, (npIndex c (y i)).isSome
  · rw [dif_pos h]
    constructor
    · intro hc
      exact absurd hc (Option.some_ne_none _)
    · rintro ⟨i, hi⟩
      have h2 := (npIndex_isSome c (y i)).mp (h i)
      exact absurd hi (by omega)
  · rw [dif_neg h]
    push_neg at h
    obtain ⟨i, hi⟩ := h
    refine iff_of_true rfl ⟨i, ?_⟩
    have h2 : ¬ (-(c : ℤ) ≤ y i ∧ y i < (c : ℤ)) :=
      fun hp => hi ((npIndex_isSome c (y i)).mpr hp)
    omega

/-- Claim C8 (amended): in training mode the call fails with an out-of-range
indexing error exactly when some label `y i` lies outside `[-C, C)`; labels in
`[-C, 0)` do not fail — numpy wraps a negative index to column `C + y i`. -/
theorem two_layer_net_raw_label_failure (X : Matrix (Fin N) (Fin D) ℝ)
    (m : Model D H C) (y : Fin N → ℤ) (reg : ℝ) :
    two_layer_net_raw X m y reg = none ↔ ∃ i, y i < -(C : ℤ) ∨ (C : ℤ) ≤ y i := by
  rw [two_layer_net_raw, Option.map_eq_none']
  exact resolveLabels_eq_none N C y

/-- Counterexample to C8 as stated: with C = 2 classes, the label `-1` is
outside `[0, C)` yet the training-mode call does not fail (numpy wraps the
negative index). -/
theorem two_layer_net_raw_neg_label_cex :
    ¬ ((0 : ℤ) ≤ -1 ∧ (-1 : ℤ) < 2)
    ∧ (two_layer_net_raw X0 m02 yNeg 0).isSome = true := by
  refine ⟨by omega, ?_⟩
  rw [two_layer_net_raw, Option.isSome_map']
  rw [resolveLabels, dif_pos (by decide : ∀ i : Fin 1, (npIndex 2 (yNeg i)).isSome)]
  rfl

/-- Claim C9: `two_layer_net` never mutates the caller's parameter arrays, in
either mode: in the allocation model every id logged as mutated in place is
distinct from the ids of `W1, b1, W2, b2`, so their contents are unchanged,
and every returned array id (scores in inference mode; the four gradients in
training mode) is a freshly allocated object distinct from the parameter
arrays. -/
theorem two_layer_net_frame (training : Bool) (xid wid1 bid1 wid2 bid2 n : ℕ)
    (hw1 : wid1 < n) (hb1 : bid1 < n) (hw2 : wid2 < n) (hb2 : bid2 < n) :
    (((two_layer_net_alloc training xid wid1 bid1 wid2 bid2 ⟨n, []⟩).2).mutated.all
        fun p => decide (p ≠ wid1 ∧ p ≠ bid1 ∧ p ≠ wid2 ∧ p ≠ bid2)) = true
    ∧ ((two_layer_net_alloc training xid wid1 bid1 wid2 bid2 ⟨n, []⟩).1.all
        fun g => decide (g ≠ wid1 ∧ g ≠ bid1 ∧ g ≠ wid2 ∧ g ≠ bid2)) = true := by
  cases training <;> simp [two_layer_net_alloc, npAlloc, npMutate, List.all_eq_true] <;> omega

/-- Witness for C9: the concrete training-mode trace with parameter ids
1, 2, 3, 4 below the allocator floor 5. -/
theorem two_layer_net_frame_witness :
    (((two_layer_net_alloc true 0 1 2 3 4 ⟨5, []⟩).2).mutated.all
        fun p => decide (p ≠ 1 ∧ p ≠ 2 ∧ p ≠ 3 ∧ p ≠ 4)) = true
    ∧ ((two_layer_net_alloc true 0 1 2 3 4 ⟨5, []⟩).1.all
        fun g => decide (g ≠ 1 ∧ g ≠ 2 ∧ g ≠ 3 ∧ g ≠ 4)) = true :=
  two_layer_net_frame true 0 1 2 3 4 5 (by norm_num) (by norm_num) (by norm_num)
    (by norm_num)

end NeuralNet
